import Mathlib

/-!
Verification of the duplicate-prevention store and webhook admission logic of the
Exotel-to-Slack call-processing service (`app.py`).

Modelling conventions.
* The SQLite table `processed_calls` (one row per `call_id`, `call_id` the primary
  key) is modelled as an association list `DB` from call ids to `CallRecord`s;
  `DB.set` is `INSERT OR REPLACE` / insert, `DB.update` is `UPDATE ... WHERE call_id = ?`
  (first matching row, no-op when absent), `DB.find` is `SELECT ... WHERE call_id = ?`.
* Timestamps: the code stores `datetime.utcnow().isoformat()` strings and compares
  them lexicographically; for equal-format ISO-8601 UTC strings the lexicographic
  order coincides with chronological order, so times are modelled as integers
  (seconds), and the string comparison `processed_at < one_hour_ago` becomes
  integer `<` on seconds.
* `mark_call_processing` issues two SQL statements on one fresh connection with
  Python sqlite3 default (deferred) transaction handling: the `SELECT` runs in
  autocommit and the subsequent `INSERT`/`UPDATE` in its own implicit transaction.
  The function is therefore modelled in the same two phases: `claimDecide` is the
  Python branch logic over the row returned by the `SELECT`, and `claimWrite` is
  the SQL write the chosen branch performs against the then-current table.
  `mark_call_processing` itself runs both phases back to back on one state;
  `interleavedClaims` runs two invocations with their phases interleaved, which
  the non-atomic SQL permits.
-/

/-- One row of the `processed_calls` table (schema from `DatabaseManager._init_database`). -/
structure CallRecord where
  from_number : String
  to_number : String
  duration : Int
  timestamp : String
  processed_at : Int
  transcription_text : String
  slack_posted : Bool
  status : String
  deriving Repr, DecidableEq

/-- The fields of the `call_data` dict that the database layer reads. -/
structure CallData where
  call_id : String
  from_number : String
  to_number : String
  duration : Int
  timestamp : String
  recording_url : Option String
  call_type : String
  deriving Repr, DecidableEq

/-- The `processed_calls` table: association list keyed by `call_id`. -/
abbrev DB := List (String × CallRecord)

/-- `SELECT ... FROM processed_calls WHERE call_id = ?` (first matching row). -/
def DB.find : DB → String → Option CallRecord
  | [], _ => none
  | (k, r) :: rest, cid => if k = cid then some r else DB.find rest cid

/-- `INSERT OR REPLACE`: replace the first row with this key, or append a new row. -/
def DB.set : DB → String → CallRecord → DB
  | [], cid, r => [(cid, r)]
  | (k, r0) :: rest, cid, r =>
      if k = cid then (cid, r) :: rest else (k, r0) :: DB.set rest cid r

/-- `UPDATE ... WHERE call_id = ?`: rewrite the first row with this key, no-op when absent. -/
def DB.update : DB → String → (CallRecord → CallRecord) → DB
  | [], _, _ => []
  | (k, r) :: rest, cid, f =>
      if k = cid then (k, f r) :: rest else (k, r) :: DB.update rest cid f

/-- The 1-hour retry window of `mark_call_processing` (`timedelta(hours=1)`), in seconds. -/
def stalenessWindow : Int := 3600

/-- `DatabaseManager.is_call_processed`: a row for this `call_id` exists with
`slack_posted = 1`. -/
def is_call_processed (db : DB) (call_id : String) : Bool :=
  match db.find call_id with
  | some r => r.slack_posted
  | none => false

/-- The branch `mark_call_processing` selects from the row its `SELECT` returned
(lines 191-241 of `app.py`). -/
inductive ClaimBranch where
  | blockPosted
  | blockProcessing
  | retryUpdate
  | blockRecent
  | insertNew
  deriving Repr, DecidableEq

/-- The Python branch logic of `mark_call_processing` over the fetched row:
permanent block when `slack_posted`, block when `status = 'processing'`, retry the
call when `processed_at < now - 1h`, otherwise recent-failure block; insert when
no row exists. -/
def claimDecide (existing : Option CallRecord) (now : Int) : ClaimBranch :=
  match existing with
  | some r =>
      if r.slack_posted then ClaimBranch.blockPosted
      else if r.status = "processing" then ClaimBranch.blockProcessing
      else if r.processed_at < now - stalenessWindow then ClaimBranch.retryUpdate
      else ClaimBranch.blockRecent
  | none => ClaimBranch.insertNew

/-- Result of one claim invocation: `claimed` / `blocked` are the `True` / `False`
returns; `integrityError` is the `sqlite3.IntegrityError` a duplicate-key `INSERT`
raises. -/
inductive ClaimOutcome where
  | claimed
  | blocked
  | integrityError
  deriving Repr, DecidableEq

/-- The fresh row the `INSERT` of `mark_call_processing` writes (lines 243-258). -/
def newProcessingRecord (cd : CallData) (now : Int) : CallRecord :=
  { from_number := cd.from_number
    to_number := cd.to_number
    duration := cd.duration
    timestamp := cd.timestamp
    processed_at := now
    transcription_text := "Processing..."
    slack_posted := false
    status := "processing" }

/-- The field rewrite of the retry `UPDATE` (lines 226-230). -/
def retryRewrite (now : Int) (r : CallRecord) : CallRecord :=
  { r with status := "processing", processed_at := now,
           transcription_text := "Processing..." }

/-- The SQL write performed by the chosen branch, against the current table:
blocks write nothing; the retry branch runs the `UPDATE`; the insert branch runs
the `INSERT`, which raises `IntegrityError` when the primary key is now taken. -/
def claimWrite (db : DB) (call_id : String) (cd : CallData) (now : Int) :
    ClaimBranch → ClaimOutcome × DB
  | ClaimBranch.blockPosted => (ClaimOutcome.blocked, db)
  | ClaimBranch.blockProcessing => (ClaimOutcome.blocked, db)
  | ClaimBranch.blockRecent => (ClaimOutcome.blocked, db)
  | ClaimBranch.retryUpdate =>
      (ClaimOutcome.claimed, db.update call_id (retryRewrite now))
  | ClaimBranch.insertNew =>
      if (db.find call_id).isSome then (ClaimOutcome.integrityError, db)
      else (ClaimOutcome.claimed, db.set call_id (newProcessingRecord cd now))

/-- `DatabaseManager.mark_call_processing`, run without interference: `SELECT`,
branch, write on one state; returns `True` iff the call was claimed. -/
def mark_call_processing (db : DB) (call_id : String) (cd : CallData) (now : Int) :
    Bool × DB :=
  let res := claimWrite db call_id cd now (claimDecide (db.find call_id) now)
  (res.1 == ClaimOutcome.claimed, res.2)

/-- The row `mark_call_processed` writes: `slack_posted = success`,
`status = 'completed' if success else 'failed'`. -/
def committedRecord (cd : CallData) (transcription : String) (success : Bool)
    (now : Int) : CallRecord :=
  { from_number := cd.from_number
    to_number := cd.to_number
    duration := cd.duration
    timestamp := cd.timestamp
    processed_at := now
    transcription_text := transcription
    slack_posted := success
    status := if success then "completed" else "failed" }

/-- `DatabaseManager.mark_call_processed`: unconditional `INSERT OR REPLACE` of
the terminal row. -/
def mark_call_processed (db : DB) (cd : CallData) (transcription : String)
    (success : Bool) (now : Int) : DB :=
  db.set cd.call_id (committedRecord cd transcription success now)

/-- `emergency_cleanup_old_records`: `DELETE ... WHERE processed_at < now - 2h AND slack_posted = 0`. -/
def emergency_cleanup_old_records (db : DB) (now : Int) : DB :=
  db.filter (fun p => ¬(p.2.processed_at < now - 7200 ∧ p.2.slack_posted = false))

-- Basic lemmas about the table operations.

theorem DB.find_set_self (db : DB) (cid : String) (r : CallRecord) :
    (db.set cid r).find cid = some r := by
  induction db with
  | nil => simp [DB.set, DB.find]
  | cons p rest ih =>
      by_cases h : p.1 = cid
      · simp [DB.set, DB.find, h]
      · simp [DB.set, DB.find, h, ih]

theorem DB.find_update_self (db : DB) (cid : String) (f : CallRecord → CallRecord)
    (r : CallRecord) (h : db.find cid = some r) :
    (db.update cid f).find cid = some (f r) := by
  induction db with
  | nil => simp [DB.find] at h
  | cons p rest ih =>
      by_cases hk : p.1 = cid
      · simp [DB.find, hk] at h
        simp [DB.update, DB.find, hk, h]
      · simp [DB.find, hk] at h
        simp [DB.update, DB.find, hk, ih h]

theorem mem_set (db : DB) (cid : String) (r : CallRecord) (p : String × CallRecord)
    (h : p ∈ db.set cid r) : p ∈ db ∨ p = (cid, r) := by
  induction db with
  | nil => simp [DB.set] at h; simp [h]
  | cons q rest ih =>
      by_cases hk : q.1 = cid
      · simp [DB.set, hk] at h
        rcases h with h | h
        · right; simp [h]
        · left; simp [h]
      · simp [DB.set, hk] at h
        rcases h with h | h
        · left; simp [h]
        · rcases ih h with h2 | h2
          · left; simp [h2]
          · right; exact h2

theorem mem_update (db : DB) (cid : String) (f : CallRecord → CallRecord)
    (p : String × CallRecord) (h : p ∈ db.update cid f) :
    p ∈ db ∨ ∃ r, db.find cid = some r ∧ p = (cid, f r) := by
  induction db with
  | nil => simp [DB.update] at h
  | cons q rest ih =>
      by_cases hk : q.1 = cid
      · simp [DB.update, hk] at h
        rcases h with h | h
        · right
          refine ⟨q.2, ?_, ?_⟩
          · simp [DB.find, hk]
          · simp [h, ← hk]
        · left; simp [h]
      · simp [DB.update, hk] at h
        rcases h with h | h
        · left; simp [h]
        · rcases ih h with h2 | h2
          · left; simp [h2]
          · right
            rcases h2 with ⟨r, hr, hp⟩
            exact ⟨r, by simp [DB.find, hk, hr], hp⟩

/-- A blocked claim returns `False` and leaves the table unchanged. -/
theorem mark_call_processing_blocked (db : DB) (cid : String) (cd : CallData)
    (now : Int) (h : (mark_call_processing db cid cd now).1 = false) :
    (mark_call_processing db cid cd now).2 = db := by
  unfold mark_call_processing at h ⊢
  cases hb : claimDecide (db.find cid) now with
  | blockPosted => simp [claimWrite, hb]
  | blockProcessing => simp [claimWrite, hb]
  | blockRecent => simp [claimWrite, hb]
  | retryUpdate => simp [claimWrite, hb] at h
  | insertNew =>
      cases hf : db.find cid with
      | some r =>
          unfold claimDecide at hb
          rw [hf] at hb
          simp at hb
          split_ifs at hb
      | none => simp [claimWrite, claimDecide, hf] at h

/-- A record whose `slack_posted` flag is set blocks every claim and is left
untouched by it. -/
theorem posted_blocks_claim (db : DB) (cid : String) (cd : CallData) (now : Int)
    (r : CallRecord) (hf : db.find cid = some r) (hp : r.slack_posted = true) :
    mark_call_processing db cid cd now = (false, db) := by
  unfold mark_call_processing claimDecide
  simp [hf, hp, claimWrite]

/-- A sequence of `mark_call_processing` attempts run back to back: the list of
`True`/`False` results, and the final table. -/
def claimSeq (db : DB) (cid : String) : List (CallData × Int) → List Bool × DB
  | [] => ([], db)
  | (cd, t) :: rest =>
      let res := mark_call_processing db cid cd t
      let tail := claimSeq res.2 cid rest
      (res.1 :: tail.1, tail.2)

theorem claimSeq_posted_all_blocked (cid : String) (reqs : List (CallData × Int)) :
    ∀ (db : DB) (r : CallRecord), db.find cid = some r → r.slack_posted = true →
      ((claimSeq db cid reqs).1.all (fun b => !b)) = true := by
  induction reqs with
  | nil => intro db r _ _; simp [claimSeq]
  | cons q rest ih =>
      intro db r hf hp
      obtain ⟨cd, t⟩ := q
      have hblock := posted_blocks_claim db cid cd t r hf hp
      simp only [claimSeq, hblock]
      simpa using ih db r hf hp

/-- C2: once `mark_call_processed` has committed a call with `success = true`
(so `slack_posted = 1`), every subsequent `mark_call_processing` for that
`call_id` returns `False`, for any sequence of claim attempts at any later
times and with any payloads — the `slack_posted` check precedes every other
branch, so neither elapsed time nor the `status` field can unblock the call. -/
theorem C2_permanent_block (db : DB) (cd : CallData) (transcription : String)
    (t0 : Int) (reqs : List (CallData × Int)) :
    ((claimSeq (mark_call_processed db cd transcription true t0) cd.call_id reqs).1.all
      (fun b => !b)) = true := by
  apply claimSeq_posted_all_blocked cd.call_id reqs _
    (committedRecord cd transcription true t0)
  · exact DB.find_set_self db cd.call_id _
  · rfl

/-- Payload used in the concrete C3 scenarios. -/
def cdC3 : CallData :=
  { call_id := "C3"
    from_number := "+911111111111"
    to_number := "09631084471"
    duration := 60
    timestamp := "2026-01-01 00:00:00"
    recording_url := none
    call_type := "Normal" }

/-- C3 (counterexample): a call committed `posted = false` at time `T = 0` is
still blocked at the instant `T + stalenessWindow` exactly, where the claim
says it can already be re-claimed: the code requires `processed_at` to be
strictly below `now - 1h`. -/
theorem C3_counterexample :
    (mark_call_processing (mark_call_processed [] cdC3 "Error: x" false 0)
      "C3" cdC3 stalenessWindow).1 = false := by decide

/-- C3 (amended): after a `posted = false` commit at time `T`, a claim at `now`
is blocked — with the table unchanged — whenever `now ≤ T + stalenessWindow`,
and succeeds whenever `T + stalenessWindow < now`, rewriting the row back to
`status = 'processing'` with `processed_at = now`. -/
theorem C3_retry_window (db : DB) (cd : CallData) (transcription : String)
    (T now : Int) (cd2 : CallData) :
    (now ≤ T + stalenessWindow →
      mark_call_processing (mark_call_processed db cd transcription false T)
          cd.call_id cd2 now
        = (false, mark_call_processed db cd transcription false T))
    ∧ (T + stalenessWindow < now →
      mark_call_processing (mark_call_processed db cd transcription false T)
          cd.call_id cd2 now
        = (true, (mark_call_processed db cd transcription false T).update cd.call_id
            (retryRewrite now))) := by
  have hf : (mark_call_processed db cd transcription false T).find cd.call_id
      = some (committedRecord cd transcription false T) :=
    DB.find_set_self db cd.call_id _
  have hp : (committedRecord cd transcription false T).slack_posted = false := rfl
  have hs : (committedRecord cd transcription false T).status = "failed" := rfl
  have hT : (committedRecord cd transcription false T).processed_at = T := rfl
  have hd : claimDecide (some (committedRecord cd transcription false T)) now
      = if T < now - stalenessWindow then ClaimBranch.retryUpdate
        else ClaimBranch.blockRecent := by
    simp only [claimDecide]
    rw [hp, hs, hT]
    simp
  constructor
  · intro hle
    have hcond : ¬(T < now - stalenessWindow) := by omega
    unfold mark_call_processing
    rw [hf, hd, if_neg hcond]
    simp [claimWrite]
  · intro hlt
    have hcond : T < now - stalenessWindow := by omega
    unfold mark_call_processing
    rw [hf, hd, if_pos hcond]
    simp [claimWrite]

/-- Concrete instantiation of `C3_retry_window` at `T = 100`: blocked at
`now = 3700 = T + stalenessWindow`, claimed at `now = 3701`. -/
theorem C3_retry_window_witness :
    (mark_call_processing (mark_call_processed [] cdC3 "Error: x" false 100)
        "C3" cdC3 3700
      = (false, mark_call_processed [] cdC3 "Error: x" false 100))
    ∧ (mark_call_processing (mark_call_processed [] cdC3 "Error: x" false 100)
        "C3" cdC3 3701
      = (true, (mark_call_processed [] cdC3 "Error: x" false 100).update "C3"
          (retryRewrite 3701))) :=
  ⟨(C3_retry_window [] cdC3 "Error: x" 100 3700 cdC3).1 (by decide),
   (C3_retry_window [] cdC3 "Error: x" 100 3701 cdC3).2 (by decide)⟩

/-- Payload used in the concrete C4 scenarios. -/
def cdC4 : CallData :=
  { call_id := "C4"
    from_number := "+912222222222"
    to_number := "09631084471"
    duration := 45
    timestamp := "2026-01-01 00:00:00"
    recording_url := none
    call_type := "Normal" }

/-- C4 (counterexample): a `processing` claim taken at time 0 is still blocked
a billion seconds later — `mark_call_processing` never re-claims a stale
`processing` row, contrary to the claim that it returns Claimed once the
staleness window has elapsed. -/
theorem C4_counterexample :
    (mark_call_processing (mark_call_processing [] "C4" cdC4 0).2
      "C4" cdC4 1000000000).1 = false := by decide

/-- C4 (amended): a row with `status = 'processing'` blocks every re-claim
through `mark_call_processing`, regardless of how long ago `processed_at` was
written, and the table is left unchanged; such a row only becomes claimable
again after the offline/startup cleanup deletes it. -/
theorem C4_processing_always_blocks (db : DB) (cid : String) (cd : CallData)
    (now : Int) (r : CallRecord) (hf : db.find cid = some r)
    (hs : r.status = "processing") :
    mark_call_processing db cid cd now = (false, db) := by
  unfold mark_call_processing claimDecide
  cases hp : r.slack_posted with
  | true => simp [hf, hp, claimWrite]
  | false => simp [hf, hp, hs, claimWrite]

/-- Concrete instantiation of `C4_processing_always_blocks`: the claim taken at
time 0 still blocks at time 999999. -/
theorem C4_processing_always_blocks_witness :
    mark_call_processing (mark_call_processing [] "C4" cdC4 0).2 "C4" cdC4 999999
      = (false, (mark_call_processing [] "C4" cdC4 0).2) :=
  C4_processing_always_blocks _ "C4" cdC4 999999 (newProcessingRecord cdC4 0)
    (by decide) (by decide)

/-- The write operations the system performs on the `processed_calls` table:
claims from the webhook gate, terminal commits from the pipeline, and the
startup cleanup. -/
inductive StoreOp where
  | claim (call_id : String) (cd : CallData) (now : Int)
  | commit (cd : CallData) (transcription : String) (success : Bool) (now : Int)
  | cleanup (now : Int)
  deriving Repr, DecidableEq

/-- Apply one store operation. -/
def applyOp (db : DB) : StoreOp → DB
  | StoreOp.claim cid cd now => (mark_call_processing db cid cd now).2
  | StoreOp.commit cd transcription success now =>
      mark_call_processed db cd transcription success now
  | StoreOp.cleanup now => emergency_cleanup_old_records db now

/-- Run a sequence of store operations. -/
def runOps (db : DB) (ops : List StoreOp) : DB := ops.foldl applyOp db

/-- The invariant of claim C5: `slack_posted = 1` implies `status = 'completed'`. -/
def PostedCompleted (db : DB) : Prop :=
  ∀ p ∈ db, p.2.slack_posted = true → p.2.status = "completed"

theorem claimDecide_retry_posted (o : Option CallRecord) (now : Int)
    (h : claimDecide o now = ClaimBranch.retryUpdate) :
    ∃ r, o = some r ∧ r.slack_posted = false := by
  cases o with
  | none => simp [claimDecide] at h
  | some r =>
      cases hp : r.slack_posted with
      | true => simp [claimDecide, hp] at h
      | false => exact ⟨r, rfl, hp⟩

theorem applyOp_preserves (db : DB) (op : StoreOp) (h : PostedCompleted db) :
    PostedCompleted (applyOp db op) := by
  cases op with
  | claim cid cd now =>
      intro p hmem hpost
      cases hb : claimDecide (db.find cid) now with
      | blockPosted =>
          simp only [applyOp, mark_call_processing, claimWrite, hb] at hmem
          exact h p hmem hpost
      | blockProcessing =>
          simp only [applyOp, mark_call_processing, claimWrite, hb] at hmem
          exact h p hmem hpost
      | blockRecent =>
          simp only [applyOp, mark_call_processing, claimWrite, hb] at hmem
          exact h p hmem hpost
      | retryUpdate =>
          simp only [applyOp, mark_call_processing, claimWrite, hb] at hmem
          rcases mem_update db cid (retryRewrite now) p hmem with hin | ⟨r, hfind, hpeq⟩
          · exact h p hin hpost
          · rcases claimDecide_retry_posted (db.find cid) now hb with ⟨r0, hr0, hp0⟩
            rw [hfind] at hr0
            injection hr0 with hr0
            subst hr0
            rw [hpeq] at hpost
            simp [retryRewrite, hp0] at hpost
      | insertNew =>
          simp only [applyOp, mark_call_processing, claimWrite, hb] at hmem
          cases hf : db.find cid with
          | some r0 => rw [hf] at hmem; simp at hmem; exact h p hmem hpost
          | none =>
              rw [hf] at hmem
              simp at hmem
              rcases mem_set db cid (newProcessingRecord cd now) p hmem with hin | hpeq
              · exact h p hin hpost
              · rw [hpeq] at hpost
                simp [newProcessingRecord] at hpost
  | commit cd transcription success now =>
      intro p hmem hpost
      simp only [applyOp, mark_call_processed] at hmem
      rcases mem_set db cd.call_id (committedRecord cd transcription success now) p hmem
          with hin | hpeq
      · exact h p hin hpost
      · rw [hpeq] at hpost ⊢
        simp only [committedRecord] at hpost ⊢
        cases success with
        | true => simp
        | false => simp at hpost
  | cleanup now =>
      intro p hmem hpost
      simp only [applyOp, emergency_cleanup_old_records] at hmem
      exact h p (List.mem_of_mem_filter hmem) hpost

theorem runOps_preserves (ops : List StoreOp) :
    ∀ db : DB, PostedCompleted db → PostedCompleted (runOps db ops) := by
  induction ops with
  | nil => intro db h; exact h
  | cons op rest ih =>
      intro db h
      exact ih (applyOp db op) (applyOp_preserves db op h)

/-- C5: any record reachable from the empty table by an arbitrary sequence of
store operations — claims (`mark_call_processing`, both insert and retry-update
paths), terminal commits (`mark_call_processed`) and the startup cleanup
(`emergency_cleanup_old_records`) — satisfies `slack_posted = 1 →
status = 'completed'`. -/
theorem C5_posted_implies_completed (ops : List StoreOp) (cid : String)
    (r : CallRecord) (hmem : (cid, r) ∈ runOps [] ops)
    (hposted : r.slack_posted = true) : r.status = "completed" := by
  have h0 : PostedCompleted ([] : DB) := by intro p hp; simp at hp
  exact runOps_preserves ops [] h0 (cid, r) hmem hposted

/-- Payload used in the concrete C5 scenario. -/
def cdC5 : CallData :=
  { call_id := "C5"
    from_number := "+913333333333"
    to_number := "09631084471"
    duration := 90
    timestamp := "2026-01-01 00:00:00"
    recording_url := none
    call_type := "Normal" }

/-- Concrete instantiation of `C5_posted_implies_completed`: after a claim and a
successful commit, the stored posted record has status `completed`. -/
theorem C5_posted_implies_completed_witness :
    (committedRecord cdC5 "mom text" true 50).status = "completed" :=
  C5_posted_implies_completed
    [StoreOp.claim "C5" cdC5 0, StoreOp.commit cdC5 "mom text" true 50]
    "C5" (committedRecord cdC5 "mom text" true 50) (by decide) (by decide)

/-- Two `mark_call_processing` invocations for the same `call_id` with their
phases interleaved as `SELECT_A; SELECT_B; write_A; write_B` — an interleaving
the store permits, since the `SELECT` and the `INSERT`/`UPDATE` of each
invocation run in separate statement-level transactions on separate
connections with no spanning lock. -/
def interleavedClaims (db : DB) (call_id : String) (cdA cdB : CallData)
    (nowA nowB : Int) : ClaimOutcome × ClaimOutcome × DB :=
  let snapA := db.find call_id
  let snapB := db.find call_id
  let resA := claimWrite db call_id cdA nowA (claimDecide snapA nowA)
  let resB := claimWrite resA.2 call_id cdB nowB (claimDecide snapB nowB)
  (resA.1, resB.1, resB.2)

/-- Payload used in the concrete C1 race. -/
def cdC1 : CallData :=
  { call_id := "C1"
    from_number := "+914444444444"
    to_number := "09631084471"
    duration := 30
    timestamp := "2026-01-01 00:00:00"
    recording_url := none
    call_type := "Normal" }

/-- A reachable table holding a failed, hour-old record for call `C1`: claimed
at time 0, committed `posted = false` at time 0. -/
def dbC1 : DB :=
  mark_call_processed (mark_call_processing [] "C1" cdC1 0).2 cdC1
    "Error: download failed" false 0

/-- C1: the check-then-act of `mark_call_processing` is not atomic, and
uniqueness of the claim fails under interleaving. Over a table holding a stale
failed record, two interleaved invocations both observe the stale row and both
return `True`; over a table with no record, the loser of the interleaved insert
race hits the primary-key constraint (`sqlite3.IntegrityError`, an exception)
instead of receiving `False`. -/
theorem C1_race_both_claimed :
    ((interleavedClaims dbC1 "C1" cdC1 cdC1 100000 100000).1 = ClaimOutcome.claimed
      ∧ (interleavedClaims dbC1 "C1" cdC1 cdC1 100000 100000).2.1 = ClaimOutcome.claimed)
    ∧ (interleavedClaims [] "C1" cdC1 cdC1 5 5).1 = ClaimOutcome.claimed
    ∧ (interleavedClaims [] "C1" cdC1 cdC1 5 5).2.1 = ClaimOutcome.integrityError := by
  decide

/-- Outcome of one OpenAI chat-completions attempt inside
`MOMGenerator.generate_mom`: a 2xx response with a non-empty `choices` list and
the given message content; a 2xx response with no choices (which the code turns
into a generic exception); a `requests` `HTTPError` with the given status code;
or any other exception. -/
inductive ApiResult where
  | content (s : String)
  | noChoices
  | httpError (code : Nat)
  | apiExc (msg : String)
  deriving Repr, DecidableEq

/-- Observable result of `generate_mom`: the returned text, the number of
attempts made, and the `time.sleep` backoff delays applied, in order. -/
structure MomRun where
  result : String
  attempts : Nat
  delays : List Nat
  deriving Repr, DecidableEq

/-- `max_retries = 3` in `generate_mom`. -/
def max_retries : Nat := 3

/-- `base_delay = 2` in `generate_mom`. -/
def base_delay : Nat := 2

/-- Leading text of the structured fallback MOM, up to the interpolated
transcript length. -/
def fallbackHead : String :=
  "**Tone:** Normal\n**Mood Analysis:** Neutral\n**Concern Type:** Miscellaneous\n**Issue Type:** Miscellaneous\n\n**Call Summary:**\nThe call was regarding a customer support inquiry. The conversation lasted "

/-- Text of the fallback MOM between the transcript length and the truncated
transcript. -/
def fallbackMid : String := " characters.\n\n**Transcription:**\n"

/-- Trailing text of the fallback MOM after the truncated transcript. -/
def fallbackTail : String :=
  "\n\n**Note:** Automated MOM generation temporarily unavailable (OpenAI rate limit). This is a direct transcription of the call.\n\n**Action Required:**\n• Review call transcription for customer concerns\n• Follow up with customer if needed\n• Update ticket with call details"

/-- Python `str.strip()`: drop whitespace from both ends (executable model of
the `.strip()` applied to the response content). -/
def pyStrip (s : String) : String :=
  String.mk (((s.data.dropWhile Char.isWhitespace).reverse.dropWhile
    Char.isWhitespace).reverse)

/-- The deterministic fallback MOM (`fallback_mom` f-string in `generate_mom`);
`transcription[:400] if len(transcription) > 400 else transcription` is
truncation to the first 400 characters in every case. -/
def fallback_mom (transcription : String) : String :=
  fallbackHead ++ toString transcription.length ++ fallbackMid
    ++ transcription.take 400 ++ fallbackTail

/-- The retry loop of `generate_mom`, one recursive step per `for` iteration:
`attempt` is the Python loop index, the first argument the number of loop
iterations remaining, `delays` the accumulated `time.sleep` backoff delays
(`base_delay * 2 ** attempt` at the top of every attempt after the first). A
2xx response with choices returns the stripped content; HTTP 401 breaks out of
the loop; 429, other HTTP errors, missing choices and all other exceptions
retry while `attempt < max_retries - 1` and otherwise fall through; leaving the
loop returns the fallback MOM. -/
def generate_mom_go (api : Nat → ApiResult) (transcription : String) :
    Nat → Nat → List Nat → MomRun
  | 0, attempt, delays => ⟨fallback_mom transcription, attempt, delays⟩
  | fuel + 1, attempt, delays =>
      let delays2 :=
        if attempt > 0 then delays ++ [base_delay * 2 ^ attempt] else delays
      match api attempt with
      | ApiResult.content s => ⟨pyStrip s, attempt + 1, delays2⟩
      | ApiResult.httpError code =>
          if code = 429 then
            if attempt < max_retries - 1 then
              generate_mom_go api transcription fuel (attempt + 1) delays2
            else ⟨fallback_mom transcription, attempt + 1, delays2⟩
          else if code = 401 then ⟨fallback_mom transcription, attempt + 1, delays2⟩
          else if attempt < max_retries - 1 then
            generate_mom_go api transcription fuel (attempt + 1) delays2
          else ⟨fallback_mom transcription, attempt + 1, delays2⟩
      | ApiResult.noChoices =>
          if attempt < max_retries - 1 then
            generate_mom_go api transcription fuel (attempt + 1) delays2
          else ⟨fallback_mom transcription, attempt + 1, delays2⟩
      | ApiResult.apiExc _ =>
          if attempt < max_retries - 1 then
            generate_mom_go api transcription fuel (attempt + 1) delays2
          else ⟨fallback_mom transcription, attempt + 1, delays2⟩

/-- `MOMGenerator.generate_mom`, with the per-attempt API outcomes supplied by
`api`. -/
def generate_mom (transcription : String) (api : Nat → ApiResult) : MomRun :=
  generate_mom_go api transcription max_retries 0 []

theorem generate_mom_go_attempts_le (api : Nat → ApiResult) (t : String) :
    ∀ fuel attempt delays,
      (generate_mom_go api t fuel attempt delays).attempts ≤ attempt + fuel := by
  intro fuel
  induction fuel with
  | zero => intro attempt delays; simp [generate_mom_go]
  | succ n ih =>
      intro attempt delays
      cases hapi : api attempt with
      | content s => simp [generate_mom_go, hapi]
      | httpError code =>
          simp only [generate_mom_go, hapi]
          split_ifs <;>
            first
              | (dsimp only; omega)
              | exact le_trans (ih (attempt + 1) _) (by omega)
      | noChoices =>
          simp only [generate_mom_go, hapi]
          split_ifs <;>
            first
              | (dsimp only; omega)
              | exact le_trans (ih (attempt + 1) _) (by omega)
      | apiExc m =>
          simp only [generate_mom_go, hapi]
          split_ifs <;>
            first
              | (dsimp only; omega)
              | exact le_trans (ih (attempt + 1) _) (by omega)

theorem generate_mom_go_attempts_mono (api : Nat → ApiResult) (t : String) :
    ∀ fuel attempt delays,
      attempt ≤ (generate_mom_go api t fuel attempt delays).attempts := by
  intro fuel
  induction fuel with
  | zero => intro attempt delays; simp [generate_mom_go]
  | succ n ih =>
      intro attempt delays
      cases hapi : api attempt with
      | content s => simp [generate_mom_go, hapi]
      | httpError code =>
          simp only [generate_mom_go, hapi]
          split_ifs <;>
            first
              | (dsimp only; omega)
              | exact le_trans (Nat.le_succ attempt) (ih (attempt + 1) _)
      | noChoices =>
          simp only [generate_mom_go, hapi]
          split_ifs <;>
            first
              | (dsimp only; omega)
              | exact le_trans (Nat.le_succ attempt) (ih (attempt + 1) _)
      | apiExc m =>
          simp only [generate_mom_go, hapi]
          split_ifs <;>
            first
              | (dsimp only; omega)
              | exact le_trans (Nat.le_succ attempt) (ih (attempt + 1) _)

theorem generate_mom_go_fallback (api : Nat → ApiResult) (t : String) :
    ∀ fuel attempt delays,
      (∀ i, attempt ≤ i →
          i < (generate_mom_go api t fuel attempt delays).attempts →
          ∀ s, api i ≠ ApiResult.content s) →
      (generate_mom_go api t fuel attempt delays).result = fallback_mom t := by
  intro fuel
  induction fuel with
  | zero => intro attempt delays _; simp [generate_mom_go]
  | succ n ih =>
      intro attempt delays hno
      cases hapi : api attempt with
      | content s =>
          exfalso
          have hlt : attempt < (generate_mom_go api t (n + 1) attempt delays).attempts := by
            simp [generate_mom_go, hapi]
          exact hno attempt (le_refl attempt) hlt s hapi
      | httpError code =>
          simp only [generate_mom_go, hapi] at hno ⊢
          by_cases h429 : code = 429
          · rw [if_pos h429] at hno ⊢
            by_cases hr : attempt < max_retries - 1
            · rw [if_pos hr] at hno ⊢
              exact ih (attempt + 1) _ (fun i h1 h2 s => hno i (by omega) h2 s)
            · rw [if_neg hr] at hno ⊢
          · rw [if_neg h429] at hno ⊢
            by_cases h401 : code = 401
            · rw [if_pos h401] at hno ⊢
            · rw [if_neg h401] at hno ⊢
              by_cases hr : attempt < max_retries - 1
              · rw [if_pos hr] at hno ⊢
                exact ih (attempt + 1) _ (fun i h1 h2 s => hno i (by omega) h2 s)
              · rw [if_neg hr] at hno ⊢
      | noChoices =>
          simp only [generate_mom_go, hapi] at hno ⊢
          by_cases hr : attempt < max_retries - 1
          · rw [if_pos hr] at hno ⊢
            exact ih (attempt + 1) _ (fun i h1 h2 s => hno i (by omega) h2 s)
          · rw [if_neg hr] at hno ⊢
      | apiExc m =>
          simp only [generate_mom_go, hapi] at hno ⊢
          by_cases hr : attempt < max_retries - 1
          · rw [if_pos hr] at hno ⊢
            exact ih (attempt + 1) _ (fun i h1 h2 s => hno i (by omega) h2 s)
          · rw [if_neg hr] at hno ⊢

theorem generate_mom_go_delays (api : Nat → ApiResult) (t : String) :
    ∀ fuel attempt delays,
      delays = ((List.range attempt).drop 1).map (fun i => base_delay * 2 ^ i) →
      (generate_mom_go api t fuel attempt delays).delays
        = ((List.range (generate_mom_go api t fuel attempt delays).attempts).drop 1).map
            (fun i => base_delay * 2 ^ i) := by
  intro fuel
  induction fuel with
  | zero => intro attempt delays h; simpa [generate_mom_go] using h
  | succ n ih =>
      intro attempt delays h
      have hstep : (if attempt > 0 then delays ++ [base_delay * 2 ^ attempt] else delays)
          = ((List.range (attempt + 1)).drop 1).map (fun i => base_delay * 2 ^ i) := by
        cases attempt with
        | zero => simpa using h
        | succ m =>
            rw [if_pos (Nat.succ_pos m), h]
            conv_rhs => rw [List.range_succ,
              List.drop_append_of_le_length (by simp), List.map_append]
            simp
      cases hapi : api attempt with
      | content s =>
          simp only [generate_mom_go, hapi]
          rw [hstep]
      | httpError code =>
          simp only [generate_mom_go, hapi]
          rw [hstep]
          by_cases h429 : code = 429
          · rw [if_pos h429]
            by_cases hr : attempt < max_retries - 1
            · rw [if_pos hr]
              exact ih (attempt + 1) _ rfl
            · rw [if_neg hr]
          · rw [if_neg h429]
            by_cases h401 : code = 401
            · rw [if_pos h401]
            · rw [if_neg h401]
              by_cases hr : attempt < max_retries - 1
              · rw [if_pos hr]
                exact ih (attempt + 1) _ rfl
              · rw [if_neg hr]
      | noChoices =>
          simp only [generate_mom_go, hapi]
          rw [hstep]
          by_cases hr : attempt < max_retries - 1
          · rw [if_pos hr]
            exact ih (attempt + 1) _ rfl
          · rw [if_neg hr]
      | apiExc m =>
          simp only [generate_mom_go, hapi]
          rw [hstep]
          by_cases hr : attempt < max_retries - 1
          · rw [if_pos hr]
            exact ih (attempt + 1) _ rfl
          · rw [if_neg hr]

theorem generate_mom_go_attempts_succ (api : Nat → ApiResult) (t : String) :
    ∀ n attempt delays,
      attempt + 1 ≤ (generate_mom_go api t (n + 1) attempt delays).attempts := by
  intro n attempt delays
  cases hapi : api attempt with
  | content s => simp [generate_mom_go, hapi]
  | httpError code =>
      simp only [generate_mom_go, hapi]
      by_cases h429 : code = 429
      · rw [if_pos h429]
        by_cases hr : attempt < max_retries - 1
        · rw [if_pos hr]
          exact generate_mom_go_attempts_mono api t n (attempt + 1) _
        · rw [if_neg hr]
      · rw [if_neg h429]
        by_cases h401 : code = 401
        · rw [if_pos h401]
        · rw [if_neg h401]
          by_cases hr : attempt < max_retries - 1
          · rw [if_pos hr]
            exact generate_mom_go_attempts_mono api t n (attempt + 1) _
          · rw [if_neg hr]
  | noChoices =>
      simp only [generate_mom_go, hapi]
      by_cases hr : attempt < max_retries - 1
      · rw [if_pos hr]
        exact generate_mom_go_attempts_mono api t n (attempt + 1) _
      · rw [if_neg hr]
  | apiExc m =>
      simp only [generate_mom_go, hapi]
      by_cases hr : attempt < max_retries - 1
      · rw [if_pos hr]
        exact generate_mom_go_attempts_mono api t n (attempt + 1) _
      · rw [if_neg hr]

set_option maxRecDepth 10000 in
theorem fallback_mom_ne_empty (t : String) : fallback_mom t ≠ "" := by
  intro h
  have hl := congrArg String.length h
  simp only [fallback_mom, String.length_append] at hl
  have hh : 0 < fallbackHead.length := by decide
  simp at hl
  omega

/-- C9 (counterexample): when the summarization API responds successfully with
empty message content, `generate_mom` returns the empty string — so it does not
always return non-empty text. -/
theorem C9_counterexample :
    (generate_mom "customer support call transcript"
      (fun _ => ApiResult.content "")).result = "" := by
  decide

/-- C9 (amended): `generate_mom` makes at most 3 attempts; if no attempt gets a
successful response, the result is exactly the deterministic fallback MOM —
non-empty and containing the transcript truncated to its first 400 characters
between the fixed template parts; the backoff delays slept are
`base_delay * 2 ^ i` before each attempt `i` after the first; and a first
attempt failing with anything other than HTTP 401 — in particular a 429 rate
limit — is always retried. On a successful response it returns the stripped
content, which is empty exactly when the service sent empty or whitespace
content. -/
theorem C9_generate_mom (t : String) (api : Nat → ApiResult) :
    (generate_mom t api).attempts ≤ 3
    ∧ ((∀ i, i < (generate_mom t api).attempts → ∀ s, api i ≠ ApiResult.content s) →
        (generate_mom t api).result
          = fallbackHead ++ toString t.length ++ fallbackMid ++ t.take 400 ++ fallbackTail
        ∧ (generate_mom t api).result ≠ "")
    ∧ (generate_mom t api).delays
        = ((List.range (generate_mom t api).attempts).drop 1).map
            (fun i => base_delay * 2 ^ i)
    ∧ ((∀ s, api 0 ≠ ApiResult.content s) → api 0 ≠ ApiResult.httpError 401 →
        2 ≤ (generate_mom t api).attempts) := by
  refine ⟨generate_mom_go_attempts_le api t 3 0 [], ?_, ?_, ?_⟩
  · intro hno
    have hres := generate_mom_go_fallback api t 3 0 []
      (fun i _ hlt s => hno i hlt s)
    have hgm : generate_mom t api = generate_mom_go api t 3 0 [] := rfl
    constructor
    · rw [hgm, hres]
      rfl
    · rw [hgm, hres]
      exact fallback_mom_ne_empty t
  · exact generate_mom_go_delays api t 3 0 [] rfl
  · intro hnc h401
    show 2 ≤ (generate_mom_go api t (2 + 1) 0 []).attempts
    cases h0 : api 0 with
    | content s => exact (hnc s h0).elim
    | httpError code =>
        simp only [generate_mom_go, h0]
        by_cases h429 : code = 429
        · rw [if_pos h429, if_pos (by decide : (0 : Nat) < max_retries - 1)]
          exact generate_mom_go_attempts_succ api t 1 1 _
        · have hc401 : ¬(code = 401) := by
            intro hc
            exact h401 (hc ▸ h0)
          rw [if_neg h429, if_neg hc401,
            if_pos (by decide : (0 : Nat) < max_retries - 1)]
          exact generate_mom_go_attempts_succ api t 1 1 _
    | noChoices =>
        simp only [generate_mom_go, h0]
        rw [if_pos (by decide : (0 : Nat) < max_retries - 1)]
        exact generate_mom_go_attempts_succ api t 1 1 _
    | apiExc m =>
        simp only [generate_mom_go, h0]
        rw [if_pos (by decide : (0 : Nat) < max_retries - 1)]
        exact generate_mom_go_attempts_succ api t 1 1 _

/-- The summarization API failing with HTTP 429 on every attempt. -/
def apiAll429 : Nat → ApiResult := fun _ => ApiResult.httpError 429

/-- Concrete instantiation of `C9_generate_mom`: three straight 429 failures
yield the fallback MOM with all its guarantees. -/
theorem C9_generate_mom_witness :
    (generate_mom "hello" apiAll429).attempts ≤ 3
    ∧ ((generate_mom "hello" apiAll429).result
        = fallbackHead ++ toString ("hello" : String).length ++ fallbackMid
          ++ ("hello" : String).take 400 ++ fallbackTail
      ∧ (generate_mom "hello" apiAll429).result ≠ "")
    ∧ (generate_mom "hello" apiAll429).delays
        = ((List.range (generate_mom "hello" apiAll429).attempts).drop 1).map
            (fun i => base_delay * 2 ^ i)
    ∧ 2 ≤ (generate_mom "hello" apiAll429).attempts :=
  ⟨(C9_generate_mom "hello" apiAll429).1,
   (C9_generate_mom "hello" apiAll429).2.1
     (fun i _ s h => ApiResult.noConfusion h),
   (C9_generate_mom "hello" apiAll429).2.2.1,
   (C9_generate_mom "hello" apiAll429).2.2.2
     (fun s h => ApiResult.noConfusion h)
     (by decide)⟩

/-- Python truthiness of an optional string field: `None` and `''` are falsy. -/
def strTruthy : Option String → Bool
  | none => false
  | some s => s != ""

/-- Agent data returned by `SlackFormatter.find_agent_from_call` for an
authorized number — the fields the webhook handler reads. The lookup runs over
the externally loaded `agent_mapping.json`, so its result is an input of the
handler model. -/
structure AgentInfo where
  name : String
  team : String
  department : String
  deriving Repr, DecidableEq

/-- Deployment configuration the webhook handler reads: whether
`SLACK_WEBHOOK_URL` is set, and `ALLOWED_DEPT_LIST`. -/
structure Config where
  slackConfigured : Bool
  allowedDeptList : List String
  deriving Repr, DecidableEq

/-- The fields of the inbound `ExotelWebhookPayload` the admission logic
reads. -/
structure Payload where
  call_id : String
  from_number : String
  to_number : String
  exotel_to : Option String
  phone_number_sid : Option String
  duration : Int
  direction : String
  recording_url : Option String
  timestamp : Option String
  deriving Repr, DecidableEq

/-- Result of obtaining the request body: `await request.json()` raised
(unparseable JSON), `ExotelWebhookPayload(**body_json)` raised (pydantic
validation failure), or a validated payload. -/
inductive BodyParse where
  | invalidJson (msg : String)
  | validationError (msg : String)
  | parsed (p : Payload)
  deriving Repr, DecidableEq

/-- Which branch of the webhook handler produced the response. -/
inductive Outcome where
  | skippedShortInbound
  | dupLayer1
  | timeRejected
  | unauthorized
  | candSkip
  | deptSkip
  | blockedLayer2
  | queued
  deriving Repr, DecidableEq

/-- Observable result of the handler: a JSON `WebhookResponse` (its `success`
flag and `message`, the numeric interpolations of the source messages elided),
whether a background pipeline task was queued, and the table afterwards — or
an `HTTPException` status. -/
inductive HandlerResult where
  | resp (outcome : Outcome) (success : Bool) (message : String) (queued : Bool) (db : DB)
  | httpError (code : Nat) (db : DB)
  deriving Repr, DecidableEq

/-- The event-age test: `hours_diff > 8760` over the parsed timestamp, i.e.
`|now - t|` above 8760 hours = 31536000 seconds; a failed parse (`none`) never
exceeds the window since the `except` swallows it. -/
def timeWindowExceeded (tsParsed : Option Int) (now : Int) : Bool :=
  match tsParsed with
  | some t => decide (31536000 < (now - t).natAbs)
  | none => false

/-- The `call_data` dict the handler hands to the store and the pipeline
(store-relevant fields): `timestamp` is `payload.timestamp or
datetime.utcnow().isoformat()`. -/
def mkCallData (p : Payload) (call_type : String) (nowIso : String) : CallData :=
  { call_id := p.call_id
    from_number := p.from_number
    to_number := p.to_number
    duration := p.duration
    timestamp := match p.timestamp with
                 | some s => if s = "" then nowIso else s
                 | none => nowIso
    recording_url := p.recording_url
    call_type := call_type }

/-- The `exotel_webhook` handler (`/webhook/exotel`, `/webhook/zapier`): body
validation, call-type detection, layer-1 duplicate pre-check, event-age
validation, strict agent authorization, Support-CAND and department skip
rules, and the layer-2 claim, queueing the background pipeline on success.
Environment-derived inputs are explicit parameters: `agentInfo` is the result
of `SlackFormatter.find_agent_from_call` over the loaded agent mapping,
`tsParsed` the result of the timestamp parse attempt (`none` when every
accepted format raises), `now` the current time in seconds, `nowIso` its ISO
string. Exceptions outside an explicit `HTTPException` are caught by the
trailing `except Exception` and re-raised as HTTP 500. -/
def exotel_webhook (cfg : Config) (db : DB) (body : BodyParse)
    (agentInfo : Option AgentInfo) (tsParsed : Option Int) (now : Int)
    (nowIso : String) : HandlerResult :=
  match body with
  | BodyParse.invalidJson _ => HandlerResult.httpError 500 db
  | BodyParse.validationError _ => HandlerResult.httpError 500 db
  | BodyParse.parsed p =>
      if p.direction = "inbound"
          ∧ (strTruthy p.recording_url = false ∨ p.duration ≤ 10) then
        HandlerResult.resp Outcome.skippedShortInbound true
          "Skipped - Short/No Recording Inbound Call" false db
      else
        let call_type := if p.direction = "inbound" then "Voicemail Call" else "Normal"
        if is_call_processed db p.call_id then
          HandlerResult.resp Outcome.dupLayer1 true
            "Duplicate call - already posted to Slack (layer 1)" false db
        else if strTruthy p.timestamp && timeWindowExceeded tsParsed now then
          HandlerResult.resp Outcome.timeRejected true
            "Call rejected - time window error" false db
        else if cfg.slackConfigured = false then
          HandlerResult.httpError 500 db
        else
          match agentInfo with
          | none =>
              HandlerResult.resp Outcome.unauthorized true
                "Call skipped - Unauthorized agent numbers" false db
          | some agent =>
              if agent.team = "Support-CAND" ∧ call_type = "Normal" then
                HandlerResult.resp Outcome.candSkip true
                  "Normal call skipped for Support-CAND agent" false db
              else if cfg.allowedDeptList ≠ [] ∧ agent.department ∉ cfg.allowedDeptList then
                HandlerResult.resp Outcome.deptSkip true
                  "Call skipped - Dept filter" false db
              else
                let cd := mkCallData p call_type nowIso
                let res := mark_call_processing db p.call_id cd now
                if res.1 then
                  HandlerResult.resp Outcome.queued true
                    (call_type ++ " queued for processing") true res.2
                else
                  HandlerResult.resp Outcome.blockedLayer2 true
                    "Duplicate call - already processing (layer 2)" false res.2

/-- C7: a structurally malformed body — unparseable JSON or a failed payload
validation — is answered with HTTP 500, not 422: the pydantic
`ValidationError` is caught by the handler's own `except Exception` and
re-raised as `HTTPException(500)`. Nothing is written to the store. The
repository's own test (`test_missing_fields` in `test_system.py`) expects 422
here. -/
theorem C7_malformed_returns_500 (cfg : Config) (db : DB) (m : String)
    (agentInfo : Option AgentInfo) (ts : Option Int) (now : Int) (nowIso : String) :
    exotel_webhook cfg db (BodyParse.invalidJson m) agentInfo ts now nowIso
      = HandlerResult.httpError 500 db
    ∧ exotel_webhook cfg db (BodyParse.validationError m) agentInfo ts now nowIso
      = HandlerResult.httpError 500 db :=
  ⟨rfl, rfl⟩

/-- C10: a timestamp that fails every accepted parse format (`tsParsed = none`)
never by itself rejects the call — the handler behaves exactly as if the
timestamp had parsed to the current instant, proceeding to the remaining
admission checks. -/
theorem C10_bad_timestamp_ignored (cfg : Config) (db : DB) (p : Payload)
    (agentInfo : Option AgentInfo) (now : Int) (nowIso : String) :
    exotel_webhook cfg db (BodyParse.parsed p) agentInfo none now nowIso
      = exotel_webhook cfg db (BodyParse.parsed p) agentInfo (some now) now nowIso := by
  have h1 : timeWindowExceeded none now = false := rfl
  have h2 : timeWindowExceeded (some now) now = false := by
    simp [timeWindowExceeded]
  simp only [exotel_webhook, h1, h2]

/-- C8: whenever the handler answers with a `WebhookResponse` — every admission
rejection (short/no-recording inbound skip, layer-1 duplicate, time-window
rejection, unauthorized numbers, Support-CAND skip, department skip, blocked
layer-2 claim) as well as admission itself — the `success` flag is `true`
(soft rejection with an explanatory message, never an error status); whenever
no pipeline task is queued the table is left unchanged; and every rejection
outcome — any outcome other than `queued` — queues no background pipeline task
and leaves the table unchanged, so no background run starts for that
delivery. -/
theorem C8_soft_rejections (cfg : Config) (db : DB) (body : BodyParse)
    (agentInfo : Option AgentInfo) (ts : Option Int) (now : Int) (nowIso : String)
    (o : Outcome) (s : Bool) (msg : String) (q : Bool) (db2 : DB)
    (h : exotel_webhook cfg db body agentInfo ts now nowIso
        = HandlerResult.resp o s msg q db2) :
    s = true ∧ (q = false → db2 = db)
    ∧ (o ≠ Outcome.queued → q = false ∧ db2 = db) := by
  cases body with
  | invalidJson m => simp [exotel_webhook] at h
  | validationError m => simp [exotel_webhook] at h
  | parsed p =>
      cases hag : agentInfo with
      | none =>
          simp only [exotel_webhook, hag] at h
          split_ifs at h <;>
            first
              | (injection h with ho hs hm hq hd
                 subst hs; subst hq; subst hd
                 exact ⟨rfl, fun _ => rfl, fun _ => ⟨rfl, rfl⟩⟩)
      | some agent =>
          simp only [exotel_webhook, hag] at h
          split_ifs at h <;>
            first
              | (injection h with ho hs hm hq hd
                 subst hs; subst hq; subst hd
                 exact ⟨rfl, fun _ => rfl, fun _ => ⟨rfl, rfl⟩⟩)
              | (injection h with ho hs hm hq hd
                 subst ho; subst hs; subst hq; subst hd
                 exact ⟨rfl, fun hq2 => Bool.noConfusion hq2,
                   fun hno => absurd rfl hno⟩)
              | (injection h with ho hs hm hq hd
                 subst hs; subst hq; subst hd
                 refine ⟨rfl, fun _ => ?_, fun _ => ⟨rfl, ?_⟩⟩ <;>
                   (apply mark_call_processing_blocked
                    simp_all))

/-- Payload used in the concrete C8 scenario: an inbound call with no
recording, rejected by the short/no-recording inbound filter. -/
def pC8 : Payload :=
  { call_id := "C8"
    from_number := "+915555555555"
    to_number := "09631084471"
    exotel_to := none
    phone_number_sid := none
    duration := 5
    direction := "inbound"
    recording_url := none
    timestamp := none }

/-- Concrete instantiation of `C8_soft_rejections` at the short-inbound
rejection: `success = true`, nothing queued, and the table untouched. -/
theorem C8_soft_rejections_witness :
    true = true ∧ (false = false → ([] : DB) = ([] : DB))
    ∧ (Outcome.skippedShortInbound ≠ Outcome.queued →
        false = false ∧ ([] : DB) = ([] : DB)) :=
  C8_soft_rejections ⟨true, []⟩ [] (BodyParse.parsed pC8) none none 0 "t"
    Outcome.skippedShortInbound true "Skipped - Short/No Recording Inbound Call"
    false [] (by decide)

/-- `b` has the characters of `a` as its leading characters. -/
def listHasPre : List Char → List Char → Bool
  | _, [] => true
  | [], _ :: _ => false
  | a :: as, b :: bs => a == b && listHasPre as bs

/-- Python `needle in hay` on strings: some suffix of `hay` starts with
`needle`. -/
def strContains (hay needle : String) : Bool :=
  (List.range (hay.length + 1)).any (fun i => listHasPre (hay.data.drop i) needle.data)

/-- Collaborator outcomes one pipeline run observes: the recording download
(`download_recording` re-raises failures), the transcription
(`transcribe_audio` re-raises failures) — both caught by the pipeline's inner
`try` and turned into error text —, the per-attempt summarization API results,
the Slack post result (`post_to_slack` catches internally and returns a
`Bool`), and an optional exception raised at an unwrapped point of the
formatting/posting region, which propagates to the run's outer `except`
boundary. -/
structure PipeOracle where
  download : Except String String
  transcribe : Except String String
  momApi : Nat → ApiResult
  slackPost : Bool
  stageExc : Option String

/-- The tail of `process_call_with_rate_limit` after the content stages: the
layer-3 final safety check (`is_call_processed`; on a hit the run returns with
no store write), then formatting and posting — where an unwrapped exception
jumps to the outer `except`, which commits `f"Error: {str(e)}"` with
`success = False` — and otherwise the single `mark_call_processed` commit with
the transcription text and the post result. Returns the table afterwards and
the `(transcription_text, success)` arguments of the commits made, in order. -/
def finishPipeline (db : DB) (cd : CallData) (orc : PipeOracle)
    (transcription : String) (now : Int) : DB × List (String × Bool) :=
  if is_call_processed db cd.call_id then (db, [])
  else
    match orc.stageExc with
    | some e =>
        (mark_call_processed db cd ("Error: " ++ e) false now,
         [("Error: " ++ e, false)])
    | none =>
        (mark_call_processed db cd transcription orc.slackPost now,
         [(transcription, orc.slackPost)])

/-- `process_call_with_rate_limit` for one claimed call: classify (normal
calls always transcribe, voicemail calls only above 10 seconds), acquire and
transcribe the recording with both failures degraded to error text, generate
the MOM for normal calls with clean transcripts (`mom_generator` may be
unconfigured, in which case the transcript stands in), then the layer-3 check,
post, and the terminal commit — with the outer `except` boundary committing
`phase = failed` on an escaped exception (`finishPipeline`). The MOM feeds only
the Slack message; the commit stores the transcription text, as in the
source. -/
def process_call_with_rate_limit (db : DB) (cd : CallData) (orc : PipeOracle)
    (momConfigured : Bool) (now : Int) : DB × List (String × Bool) :=
  let call_type := cd.call_type
  let duration := cd.duration
  let should_transcribe :=
    if call_type = "Normal" then true
    else if call_type = "Voicemail Call" then decide (duration > 10) else false
  let transcription :=
    if should_transcribe then
      if strTruthy cd.recording_url then
        match orc.download with
        | Except.error e => "Error in transcription: " ++ e
        | Except.ok _ =>
            match orc.transcribe with
            | Except.error e => "Error in transcription: " ++ e
            | Except.ok t => if t = "" then "No transcription possible." else t
      else "No recording available."
    else "Voicemail (Check Link)"
  let _mom :=
    if should_transcribe then
      if call_type = "Normal" ∧ transcription ≠ ""
          ∧ strContains transcription "Error" = false then
        if momConfigured ∧ transcription ≠ "" then
          (generate_mom transcription orc.momApi).result
        else transcription
      else ""
    else "N/A"
  finishPipeline db cd orc transcription now

/-- A successful claim leaves the claimed row with `slack_posted = 0`, so the
layer-3 final safety check cannot fire for the run that holds the claim. -/
theorem claim_success_not_posted (db : DB) (cid : String) (cd : CallData)
    (now : Int) (h : (mark_call_processing db cid cd now).1 = true) :
    is_call_processed (mark_call_processing db cid cd now).2 cid = false := by
  unfold mark_call_processing at h ⊢
  cases hb : claimDecide (db.find cid) now with
  | blockPosted => rw [hb] at h; simp [claimWrite] at h
  | blockProcessing => rw [hb] at h; simp [claimWrite] at h
  | blockRecent => rw [hb] at h; simp [claimWrite] at h
  | retryUpdate =>
      rcases claimDecide_retry_posted (db.find cid) now hb with ⟨r0, hr0, hp0⟩
      simp only [claimWrite]
      unfold is_call_processed
      rw [DB.find_update_self db cid (retryRewrite now) r0 hr0]
      simp [retryRewrite, hp0]
  | insertNew =>
      cases hf : db.find cid with
      | some r =>
          unfold claimDecide at hb
          rw [hf] at hb
          simp at hb
          split_ifs at hb
      | none =>
          simp only [claimWrite, hf, Option.isSome_none, Bool.false_eq_true, if_false]
          unfold is_call_processed
          rw [DB.find_set_self]
          simp [newProcessingRecord]

theorem finishPipeline_commits (db : DB) (cd : CallData) (orc : PipeOracle)
    (transcription : String) (now : Int)
    (hnp : is_call_processed db cd.call_id = false) :
    (finishPipeline db cd orc transcription now).2.length = 1
    ∧ (∀ e, orc.stageExc = some e →
        (finishPipeline db cd orc transcription now).2 = [("Error: " ++ e, false)]
        ∧ (finishPipeline db cd orc transcription now).1.find cd.call_id
            = some (committedRecord cd ("Error: " ++ e) false now)) := by
  unfold finishPipeline
  rw [hnp]
  cases hexc : orc.stageExc with
  | some e =>
      refine ⟨by simp, fun e2 he2 => ?_⟩
      injection he2 with he2
      subst he2
      exact ⟨by simp, by simp [mark_call_processed, DB.find_set_self]⟩
  | none =>
      refine ⟨by simp, fun e2 he2 => ?_⟩
      exact Option.noConfusion he2

/-- C6: for every successful claim, one run of the pipeline over the resulting
table performs exactly one terminal `mark_call_processed` commit — whatever
the collaborator outcomes, including every one of them failing — and when an
exception reaches the run's outer boundary it is committed as the error text
with `success = false`, leaving the row in `status = 'failed'`,
`slack_posted = 0`; no exception escapes without a store write. -/
theorem C6_pipeline_totality (db : DB) (cd : CallData) (t : Int)
    (orc : PipeOracle) (momConfigured : Bool) (now : Int)
    (h : (mark_call_processing db cd.call_id cd t).1 = true) :
    (process_call_with_rate_limit (mark_call_processing db cd.call_id cd t).2 cd orc
        momConfigured now).2.length = 1
    ∧ (∀ e, orc.stageExc = some e →
        (process_call_with_rate_limit (mark_call_processing db cd.call_id cd t).2 cd orc
            momConfigured now).2 = [("Error: " ++ e, false)]
        ∧ (process_call_with_rate_limit (mark_call_processing db cd.call_id cd t).2 cd orc
            momConfigured now).1.find cd.call_id
            = some (committedRecord cd ("Error: " ++ e) false now)) := by
  have hnp := claim_success_not_posted db cd.call_id cd t h
  exact finishPipeline_commits (mark_call_processing db cd.call_id cd t).2 cd orc _
    now hnp

/-- Payload used in the concrete C6 scenario. -/
def cdC6 : CallData :=
  { call_id := "C6"
    from_number := "+916666666666"
    to_number := "09631084471"
    duration := 60
    timestamp := "2026-01-01 00:00:00"
    recording_url := some "https://recordings.exotel.com/c6.mp3"
    call_type := "Normal" }

/-- Collaborators for the concrete C6 scenario: download and transcription
fail, summarization is rate-limited on every attempt, the Slack post fails,
and an exception escapes to the outer boundary. -/
def orcC6 : PipeOracle :=
  { download := Except.error "download failed"
    transcribe := Except.error "transcribe failed"
    momApi := fun _ => ApiResult.httpError 429
    slackPost := false
    stageExc := some "boom" }

/-- Concrete instantiation of `C6_pipeline_totality`: with every collaborator
failing and a boundary exception, the run still commits exactly once, as a
failed record carrying the error text. -/
theorem C6_pipeline_totality_witness :
    (process_call_with_rate_limit (mark_call_processing [] cdC6.call_id cdC6 0).2 cdC6
        orcC6 true 5).2.length = 1
    ∧ ((process_call_with_rate_limit (mark_call_processing [] cdC6.call_id cdC6 0).2 cdC6
        orcC6 true 5).2 = [("Error: " ++ "boom", false)]
      ∧ (process_call_with_rate_limit (mark_call_processing [] cdC6.call_id cdC6 0).2 cdC6
          orcC6 true 5).1.find cdC6.call_id
          = some (committedRecord cdC6 ("Error: " ++ "boom") false 5)) :=
  ⟨(C6_pipeline_totality [] cdC6 0 orcC6 true 5 (by decide)).1,
   (C6_pipeline_totality [] cdC6 0 orcC6 true 5 (by decide)).2 "boom" rfl⟩
